import Mathlib

/-!
Verification of the cclint diagnostic-stream formatter (`src/cclint/file_stream.py`)
and the argument filtering of the run controller (`src/cclint/command.py`).

Strings are modelled as `List Char`; Python string primitives (`startswith`,
`split(sep, maxsplit)`, `strip`, `str.lower` on one character) are embedded as
executable Lean functions below.  Printing is modelled as a list of emitted
output lines; ANSI colour codes and the fixed `line_indent` column counts are
presentation-only constants and are not part of the model.  A Python exception
is modelled as an `Option PyError` carried in the result together with the
state the object holds at the moment the exception propagates (in Python the
mutations performed before the `raise` survive on the object).
-/

namespace Cclint

/-- Python `str.strip()` whitespace set, restricted to the ASCII whitespace
characters (space, tab, newline, carriage return, vertical tab, form feed). -/
def pyIsSpace (c : Char) : Bool :=
  c == ' ' || c == '\t' || c == '\n' || c == '\r' ||
  c == Char.ofNat 11 || c == Char.ofNat 12

/-- Python `s.strip()`: drop whitespace from both ends. -/
def strip (s : List Char) : List Char :=
  ((s.dropWhile pyIsSpace).reverse.dropWhile pyIsSpace).reverse

/-- Python `s.split(sep, 1)`: `some (before, after)` when `sep` occurs in `s`
(split at the first occurrence), `none` when it does not (in which case the
Python call returns the one-element list `[s]` and indexing `[1]` raises). -/
def splitFirst (sep : Char) : List Char → Option (List Char × List Char)
  | [] => none
  | c :: cs =>
    if c == sep then some ([], cs)
    else
      match splitFirst sep cs with
      | none => none
      | some (a, b) => some (c :: a, b)

/-- Python `s.split(sep, 2)` unpacked into three names: `some (a, b, rest)`
when `sep` occurs at least twice, `none` otherwise (the three-name unpack of a
shorter list raises `ValueError` in Python). -/
def split2 (sep : Char) (s : List Char) : Option (List Char × List Char × List Char) :=
  match splitFirst sep s with
  | none => none
  | some (a, rest) =>
    match splitFirst sep rest with
    | none => none
    | some (b, c) => some (a, b, c)

/-- Python `str.lower()` applied to a single character. -/
def pyLower (c : Char) : Char := c.toLower

/-- The table `_WARNING_PATTERNS` of `file_stream.py` (lines 43-44): ordered
pairs of a literal that must begin the raw line and the separator character
behind which the printed message starts. -/
def warningPatterns : List (List Char × Char) :=
  [("Skipping input".toList, ':'), ("Ignoring".toList, ';')]

/-- The `for beginning_match, seprator in _WARNING_PATTERNS` scan of
`FileStream.write` (line 93): the first pattern whose literal begins the line,
if any. -/
def findWarningPattern (data : List Char) : Option (List Char × Char) :=
  warningPatterns.find? (fun p => p.1.isPrefixOf data)

/-- The literal tested by `data.startswith('Done')` (line 88). -/
def doneMarker : List Char := "Done".toList

/-- The mutable fields of the `FileStream` object.  `Init` sets the first
three (the per-run fields), `PrepareForProcessingFile` sets the last two (the
per-file fields). -/
structure FileStreamState where
  previous_file_has_error : Bool
  processed_files : Nat
  total_error_counts : Nat
  filename : List Char
  error_counts : Nat
deriving Repr, DecidableEq

/-- One line printed by the formatter, with the colour codes and leading
indentation spaces (presentation only) abstracted away. -/
inductive OutputLine where
  /-- `print('')`. -/
  | blank : OutputLine
  /-- The glyph-plus-filename header line printed by `PrintFilename`. -/
  | header (glyph : Char) (filename : List Char) : OutputLine
  /-- The dim `// message` sub-line printed by `PrintFilename` for warnings. -/
  | subMessage (message : List Char) : OutputLine
  /-- The indented `#<line_number>: <description>` diagnostic line. -/
  | detail (lineNumber : List Char) (description : List Char) : OutputLine
deriving Repr, DecidableEq

/-- The Python exceptions `FileStream.write` can raise. -/
inductive PyError where
  /-- `IndexError`: `data.split(seprator, 1)[1]` when the separator is absent,
  or `message[0]` when the stripped message is empty (lines 95-96). -/
  | indexError : PyError
  /-- `ValueError`: the three-name unpack of `data.split(':', 2)` when the
  line holds fewer than two colons (line 110). -/
  | valueError : PyError
deriving Repr, DecidableEq

/-- Result of one `write` call: the state of the object afterwards, the lines
printed (in order), and the exception that propagated, if any. -/
structure WriteResult where
  state : FileStreamState
  output : List OutputLine
  error : Option PyError
deriving Repr, DecidableEq

/-- `FileStream.Init` (lines 50-53). -/
def Init (st : FileStreamState) : FileStreamState :=
  { st with previous_file_has_error := false
            processed_files := 0
            total_error_counts := 0 }

/-- `FileStream.PrepareForProcessingFile` (lines 55-60); the `sys.stderr`
redirection is I/O plumbing outside the model. -/
def PrepareForProcessingFile (st : FileStreamState) (filename : List Char) :
    FileStreamState :=
  { st with filename := filename, error_counts := 0 }

/-- `FileStream.PrintFilename` (lines 62-77): optionally a blank line, then
the glyph-and-filename header, then an optional dim message sub-line;
increments `processed_files` and records whether this header used the error
glyph. -/
def PrintFilename (st : FileStreamState) (state : Char)
    (message : Option (List Char)) : FileStreamState × List OutputLine :=
  let current_file_has_error := state == '✗'
  let pre : List OutputLine :=
    if st.processed_files == 0 ||
       (st.previous_file_has_error && !current_file_has_error) then
      [.blank]
    else []
  let msgOut : List OutputLine :=
    match message with
    | some m => [.subMessage m]
    | none => []
  ({ st with processed_files := st.processed_files + 1
             previous_file_has_error := current_file_has_error },
   pre ++ [.header state st.filename] ++ msgOut)

/-- The `data.startswith('Done')` branch of `FileStream.write` (lines 88-92). -/
def writeDone (st : FileStreamState) : WriteResult :=
  if st.error_counts == 0 then
    let r := PrintFilename st '✓' none
    ⟨r.1, r.2, none⟩
  else ⟨st, [], none⟩

/-- The warning branch of `FileStream.write` (lines 94-100), entered once a
pattern of `_WARNING_PATTERNS` matched with separator `sep`.
`data.split(sep, 1)[1]` raises `IndexError` when `sep` is absent, and
`message[0]` raises `IndexError` when the stripped remainder is empty; both
exceptions propagate before any state change or printing. -/
def writeWarning (st : FileStreamState) (sep : Char) (data : List Char) :
    WriteResult :=
  match splitFirst sep data with
  | none => ⟨st, [], some .indexError⟩
  | some (_, rest) =>
    match strip rest with
    | [] => ⟨st, [], some .indexError⟩
    | c :: cs =>
      let r := PrintFilename st '⚠' (some (pyLower c :: cs))
      ⟨r.1, r.2, none⟩

/-- The error branch of `FileStream.write` (lines 102-117): increment both
error counters, print the error header at the first error of the file (with an
extra leading blank line when at least one file already printed a header),
then split the line on its first two colons — a split with fewer than three
parts raises `ValueError` at that point, after the increments and the header —
and finally print the indented detail line. -/
def writeError (st : FileStreamState) (data : List Char) : WriteResult :=
  let st1 := { st with error_counts := st.error_counts + 1
                       total_error_counts := st.total_error_counts + 1 }
  let hdr :=
    if st1.error_counts == 1 then
      let pre : List OutputLine :=
        if st1.processed_files > 0 then [.blank] else []
      let r := PrintFilename st1 '✗' none
      (r.1, pre ++ r.2)
    else (st1, ([] : List OutputLine))
  match split2 ':' data with
  | none => ⟨hdr.1, hdr.2, some .valueError⟩
  | some (_, line_number, description) =>
    ⟨hdr.1, hdr.2 ++ [.detail line_number (strip description)], none⟩

/-- `FileStream.write` (lines 79-117): the completion-marker test first, then
the warning-pattern scan, then the error branch.  The temporary `sys.stderr`
swaps are I/O plumbing outside the model. -/
def write (st : FileStreamState) (data : List Char) : WriteResult :=
  if doneMarker.isPrefixOf data then writeDone st
  else
    match findWarningPattern data with
    | some p => writeWarning st p.2 data
    | none => writeError st data

/-- A raw line takes the error branch of `write`: it begins neither with the
completion marker `'Done'` nor with a recognized warning prefix. -/
def isErrorLine (data : List Char) : Bool :=
  !(doneMarker.isPrefixOf data) && (findWarningPattern data).isNone

/-- Number of `Error`-classified (error-branch) lines in a list of raw lines. -/
def countErrorLines (lines : List (List Char)) : Nat :=
  lines.countP (fun l => isErrorLine l)

/-- Number of header lines in a list of emitted output lines. -/
def countHeaders (out : List OutputLine) : Nat :=
  out.countP (fun l =>
    match l with
    | .header _ _ => true
    | _ => false)

/-- Feed a list of raw lines into `write` one after the other, stopping at the
first line whose `write` raises (in Python the exception propagates out of the
feeding loop); the printed output accumulates in order. -/
def feedAll (st : FileStreamState) : List (List Char) → WriteResult
  | [] => ⟨st, [], none⟩
  | l :: ls =>
    let r := write st l
    match r.error with
    | some e => ⟨r.state, r.output, some e⟩
    | none =>
      let rest := feedAll r.state ls
      ⟨rest.state, r.output ++ rest.output, rest.error⟩

/-- Modelled from the spec: `stream.begin(filename)` is called by
`execute_from_command_line` (command.py line 190) but `FileStream` defines no
`begin`; §4.2 `beginFile(filename)` sets the FileContext to
`{filename, errorCount: 0}`, which is exactly what the source's
`PrepareForProcessingFile` does. -/
def beginFile (st : FileStreamState) (filename : List Char) : FileStreamState :=
  PrepareForProcessingFile st filename

/-- Modelled from the spec: `stream.end()` is called by
`execute_from_command_line` (command.py line 192) but `FileStream` defines no
`end`; §4.2 `endFile()` increments `RunState.processedFileCount`. -/
def endFile (st : FileStreamState) : FileStreamState :=
  { st with processed_files := st.processed_files + 1 }

/-- The per-file loop of `execute_from_command_line` (command.py lines
189-192): for each file, `beginFile`, then one `write` per raw line the engine
emits for it, then `endFile`; a raised exception aborts the run. -/
def runFiles (st : FileStreamState) :
    List (List Char × List (List Char)) → WriteResult
  | [] => ⟨st, [], none⟩
  | f :: fs =>
    let r := feedAll (beginFile st f.1) f.2
    match r.error with
    | some e => ⟨r.state, r.output, some e⟩
    | none =>
      let rest := runFiles (endFile r.state) fs
      ⟨rest.state, r.output ++ rest.output, rest.error⟩

/-- A fresh `FileStream` object before any method ran; the Python object
carries none of the five modelled attributes yet, so their initial values are
arbitrary placeholders that every run overwrites through `Init` and
`beginFile`. -/
def blankState : FileStreamState := ⟨false, 0, 0, [], 0⟩

/-- The state at the first fed line of a file once `Init` (= the spec's
`beginRun`) and `PrepareForProcessingFile` (= the spec's `beginFile`) have
run. -/
def startState (fn : List Char) : FileStreamState :=
  PrepareForProcessingFile (Init blankState) fn

/-- A whole run: modelled from the spec (§4.2, §4.4) insofar as `beginRun` is
performed once before the first file (src's `command.py` itself never invokes
`Init`); then the per-file loop of `execute_from_command_line` runs. -/
def run (files : List (List Char × List (List Char))) : WriteResult :=
  runFiles (Init blankState) files

/-- The `DiagnosticLine` variants of the spec's data model (§3). -/
inductive DiagnosticLine where
  | error (lineNumber : List Char) (description : List Char) : DiagnosticLine
  | warning (message : List Char) : DiagnosticLine
  | completion : DiagnosticLine
deriving Repr, DecidableEq

/-- The classification `FileStream.write` performs on a raw line, factored as
a pure function of the line alone: the source tests the completion marker
first (line 88), then scans the warning table (line 93), and otherwise takes
the error branch whose three-part split may fail (line 110).  The failure
value records the Python exception the corresponding branch raises. -/
def classify (data : List Char) : Except PyError DiagnosticLine :=
  if doneMarker.isPrefixOf data then .ok .completion
  else
    match findWarningPattern data with
    | some p =>
      match splitFirst p.2 data with
      | none => .error .indexError
      | some (_, rest) =>
        match strip rest with
        | [] => .error .indexError
        | c :: cs => .ok (.warning (pyLower c :: cs))
    | none =>
      match split2 ':' data with
      | none => .error .valueError
      | some (_, line_number, description) =>
        .ok (.error line_number (strip description))

/-- The spec's decision procedure for `classify` (§4.1), in the spec's order:
the ordered warning-prefix table first (first match wins; split on the first
occurrence of the matched separator, trim, lower-case the first character),
then the completion literal, then the split into exactly three parts on the
first two colons with the description trimmed and the rest taken verbatim.
The spec leaves a malformed warning line undefined (§9); it is mirrored as
the code's failure so the comparison is total. -/
def classifySpec (data : List Char) : Except PyError DiagnosticLine :=
  match findWarningPattern data with
  | some p =>
    match splitFirst p.2 data with
    | none => .error .indexError
    | some (_, rest) =>
      match strip rest with
      | [] => .error .indexError
      | c :: cs => .ok (.warning (pyLower c :: cs))
  | none =>
    if doneMarker.isPrefixOf data then .ok .completion
    else
      match split2 ':' data with
      | none => .error .valueError
      | some (_, line_number, description) =>
        .ok (.error line_number (strip description))

/-- A malformed line of the error branch: `write` reaches the three-part split
and that split yields fewer than three parts. -/
def errorMalformed (data : List Char) : Bool :=
  isErrorLine data && (split2 ':' data).isNone

/-- A malformed line of the warning branch: a recognized warning prefix begins
the line but the separator is absent, or the extracted trimmed message is
empty. -/
def warningMalformed (data : List Char) : Bool :=
  !(doneMarker.isPrefixOf data) &&
  (match findWarningPattern data with
   | some p =>
     match splitFirst p.2 data with
     | none => true
     | some (_, rest) => (strip rest).isEmpty
   | none => false)

/-- One command-line argument as `parse_arguments` (command.py lines 110-117)
sees it.  `isDir`, `isFile` and `relpath` depend on the filesystem and the
working directory (`os.path.isdir`, `os.path.isfile`, `os.path.relpath`), so
they are modelled as oracle attributes of the argument; `dirname` is computed
from the path below. -/
structure PathArg where
  path : List Char
  isDir : Bool
  isFile : Bool
  relpath : List Char
deriving Repr, DecidableEq

/-- `os.path.dirname` for POSIX paths: everything before the last `'/'`
(keeping it when the head consists only of separators), empty when the path
holds no `'/'`. -/
def dirname (p : List Char) : List Char :=
  match splitFirst '/' p.reverse with
  | none => []
  | some (_, revDir) =>
    let head := revDir.reverse ++ ['/']
    if head.all (fun c => c == '/') then head
    else ((head.reverse.dropWhile (fun c => c == '/')).reverse)

/-- The filtering loop of `parse_arguments` (command.py lines 110-117): a
directory argument whose `os.path.relpath` is an excluded directory, or a file
argument whose `os.path.dirname` is an excluded directory, is skipped; every
other argument is appended in order. -/
def filterFilenames (excludedirs : List (List Char)) : List PathArg → List PathArg
  | [] => []
  | a :: rest =>
    if (a.isDir && excludedirs.contains a.relpath) ||
       (a.isFile && excludedirs.contains (dirname a.path)) then
      filterFilenames excludedirs rest
    else
      a :: filterFilenames excludedirs rest

/-! ## Helper lemmas -/

theorem doneMarker_eq : doneMarker = ['D', 'o', 'n', 'e'] := rfl

theorem skippingLiteral_eq :
    "Skipping input".toList =
      ['S', 'k', 'i', 'p', 'p', 'i', 'n', 'g', ' ', 'i', 'n', 'p', 'u', 't'] := rfl

theorem ignoringLiteral_eq :
    "Ignoring".toList = ['I', 'g', 'n', 'o', 'r', 'i', 'n', 'g'] := rfl

theorem isPrefixOf_head {a b : Char} {as bs : List Char}
    (h : (a :: as).isPrefixOf (b :: bs) = true) : a = b := by
  simp [List.isPrefixOf] at h
  exact h.1

/-- A line beginning with the completion marker matches no warning pattern:
the literals start with different characters. -/
theorem findWarningPattern_of_done {data : List Char}
    (h : doneMarker.isPrefixOf data = true) : findWarningPattern data = none := by
  cases data with
  | nil => rw [doneMarker_eq] at h; simp [List.isPrefixOf] at h
  | cons b bs =>
    rw [doneMarker_eq] at h
    have hb : 'D' = b := isPrefixOf_head h
    subst hb
    rw [findWarningPattern, warningPatterns, skippingLiteral_eq, ignoringLiteral_eq]
    simp [List.find?, List.isPrefixOf]

/-- A line matching a warning pattern does not begin with the completion
marker. -/
theorem done_of_findWarningPattern {data : List Char} {p : List Char × Char}
    (h : findWarningPattern data = some p) :
    doneMarker.isPrefixOf data = false := by
  by_cases hd : doneMarker.isPrefixOf data = true
  · rw [findWarningPattern_of_done hd] at h; exact absurd h (by simp)
  · simp only [Bool.not_eq_true] at hd; exact hd

theorem PrintFilename_total (st : FileStreamState) (g : Char)
    (m : Option (List Char)) :
    (PrintFilename st g m).1.total_error_counts = st.total_error_counts := rfl

theorem PrintFilename_error_counts (st : FileStreamState) (g : Char)
    (m : Option (List Char)) :
    (PrintFilename st g m).1.error_counts = st.error_counts := rfl

theorem PrintFilename_filename (st : FileStreamState) (g : Char)
    (m : Option (List Char)) :
    (PrintFilename st g m).1.filename = st.filename := rfl

theorem PrintFilename_processed (st : FileStreamState) (g : Char)
    (m : Option (List Char)) :
    (PrintFilename st g m).1.processed_files = st.processed_files + 1 := rfl

theorem PrintFilename_headers (st : FileStreamState) (g : Char)
    (m : Option (List Char)) :
    countHeaders (PrintFilename st g m).2 = 1 := by
  cases m <;>
    by_cases hc : (st.processed_files == 0 ||
        (st.previous_file_has_error && !(g == '✗'))) = true <;>
      simp [PrintFilename, countHeaders, hc, List.countP_cons, List.countP_append]

theorem countHeaders_append (a b : List OutputLine) :
    countHeaders (a ++ b) = countHeaders a + countHeaders b := by
  simp [countHeaders, List.countP_append]

theorem countHeaders_nil : countHeaders [] = 0 := rfl

theorem countHeaders_blank : countHeaders [.blank] = 0 := rfl

theorem countHeaders_detail (ln d : List Char) :
    countHeaders [.detail ln d] = 0 := rfl

theorem countHeaders_blank_cons (xs : List OutputLine) :
    countHeaders (.blank :: xs) = countHeaders xs := by
  simp [countHeaders, List.countP_cons]

theorem writeDone_counters (st : FileStreamState) :
    (writeDone st).state.total_error_counts = st.total_error_counts ∧
    (writeDone st).state.processed_files =
      st.processed_files + countHeaders (writeDone st).output := by
  by_cases h : (st.error_counts == 0) = true <;>
    simp [writeDone, h, PrintFilename_total, PrintFilename_processed,
      PrintFilename_headers, countHeaders_nil]

theorem writeWarning_counters (st : FileStreamState) (sep : Char)
    (data : List Char) :
    (writeWarning st sep data).state.total_error_counts = st.total_error_counts ∧
    (writeWarning st sep data).state.error_counts = st.error_counts ∧
    (writeWarning st sep data).state.processed_files =
      st.processed_files + countHeaders (writeWarning st sep data).output := by
  cases h : splitFirst sep data with
  | none => simp [writeWarning, h, countHeaders_nil]
  | some pr =>
    obtain ⟨a, rest⟩ := pr
    cases hs : strip rest with
    | nil => simp [writeWarning, h, hs, countHeaders_nil]
    | cons c cs =>
      simp [writeWarning, h, hs, PrintFilename_total, PrintFilename_error_counts,
        PrintFilename_processed, PrintFilename_headers]

theorem writeError_counters (st : FileStreamState) (data : List Char) :
    (writeError st data).state.total_error_counts = st.total_error_counts + 1 ∧
    (writeError st data).state.error_counts = st.error_counts + 1 ∧
    (writeError st data).state.filename = st.filename ∧
    (writeError st data).state.processed_files =
      st.processed_files + countHeaders (writeError st data).output := by
  by_cases h1 : (st.error_counts + 1 == 1) = true <;>
  by_cases h2 : (st.processed_files > 0) <;>
  cases h3 : split2 ':' data with
  | none =>
    simp [writeError, h1, h2, h3, PrintFilename_total, PrintFilename_error_counts,
      PrintFilename_filename, PrintFilename_processed, PrintFilename_headers,
      countHeaders_append, countHeaders_nil, countHeaders_blank,
      countHeaders_blank_cons]
  | some t =>
    obtain ⟨a, b, c⟩ := t
    simp [writeError, h1, h2, h3, PrintFilename_total, PrintFilename_error_counts,
      PrintFilename_filename, PrintFilename_processed, PrintFilename_headers,
      countHeaders_append, countHeaders_nil, countHeaders_blank, countHeaders_detail,
      countHeaders_blank_cons]

/-- Per-call counter bookkeeping of `write`: `total_error_counts` grows by one
exactly on error-branch lines, and `processed_files` grows by the number of
headers the call printed. -/
theorem write_counters (st : FileStreamState) (data : List Char) :
    (write st data).state.total_error_counts =
      st.total_error_counts + (if isErrorLine data then 1 else 0) ∧
    (write st data).state.processed_files =
      st.processed_files + countHeaders (write st data).output := by
  by_cases hd : (doneMarker.isPrefixOf data) = true
  · have he : isErrorLine data = false := by simp [isErrorLine, hd]
    simpa [write, hd, he] using writeDone_counters st
  · simp only [Bool.not_eq_true] at hd
    cases hw : findWarningPattern data with
    | some p =>
      have he : isErrorLine data = false := by simp [isErrorLine, hw]
      have := writeWarning_counters st p.2 data
      simp only [write, hd, hw, Bool.false_eq_true, if_false, he] at *
      exact ⟨this.1, this.2.2⟩
    | none =>
      have he : isErrorLine data = true := by simp [isErrorLine, hd, hw]
      have := writeError_counters st data
      simp only [write, hd, hw, Bool.false_eq_true, if_false, he, if_true] at *
      exact ⟨this.1, this.2.2.2⟩

/-- `write` raises exactly when the pure classification of the line fails,
with the same Python exception. -/
theorem write_error_eq_classify (st : FileStreamState) (data : List Char) :
    (write st data).error =
      (match classify data with
       | .ok _ => none
       | .error e => some e) := by
  by_cases hd : (doneMarker.isPrefixOf data) = true
  · simp only [write, classify, hd, if_true]
    by_cases he : (st.error_counts == 0) = true <;> simp [writeDone, he]
  · simp only [Bool.not_eq_true] at hd
    simp only [write, classify, hd, Bool.false_eq_true, if_false]
    cases hw : findWarningPattern data with
    | some p =>
      cases hs : splitFirst p.2 data with
      | none => simp [writeWarning, hs]
      | some pr =>
        obtain ⟨a, rest⟩ := pr
        cases hstr : strip rest with
        | nil => simp [writeWarning, hs, hstr]
        | cons c cs => simp [writeWarning, hs, hstr]
    | none =>
      by_cases h1 : (st.error_counts + 1 == 1) = true <;>
      cases h2 : split2 ':' data with
      | none => simp [writeError, h1, h2]
      | some t =>
        obtain ⟨a, b, c⟩ := t
        simp [writeError, h1, h2]

theorem beginFile_total (st : FileStreamState) (fn : List Char) :
    (beginFile st fn).total_error_counts = st.total_error_counts := rfl

theorem endFile_total (st : FileStreamState) :
    (endFile st).total_error_counts = st.total_error_counts := rfl

/-- Feeding a list of lines with no raise adds one to `total_error_counts`
per error-branch line. -/
theorem feedAll_total (ls : List (List Char)) (st : FileStreamState)
    (h : (feedAll st ls).error = none) :
    (feedAll st ls).state.total_error_counts =
      st.total_error_counts + countErrorLines ls := by
  induction ls generalizing st with
  | nil => simp [feedAll, countErrorLines]
  | cons l ls ih =>
    cases he : (write st l).error with
    | some e => rw [feedAll] at h; simp [he] at h
    | none =>
      rw [feedAll] at h ⊢
      simp only [he] at h ⊢
      rw [ih (write st l).state h, (write_counters st l).1]
      by_cases hi : isErrorLine l = true <;>
        simp [countErrorLines, List.countP_cons, hi] <;> omega

/-- A completed run adds, per file, one to `total_error_counts` per
error-branch line of that file. -/
theorem runFiles_total (files : List (List Char × List (List Char)))
    (st : FileStreamState) (h : (runFiles st files).error = none) :
    (runFiles st files).state.total_error_counts =
      st.total_error_counts + (files.map (fun f => countErrorLines f.2)).sum := by
  induction files generalizing st with
  | nil => simp [runFiles]
  | cons f fs ih =>
    cases he : (feedAll (beginFile st f.1) f.2).error with
    | some e => rw [runFiles] at h; simp [he] at h
    | none =>
      rw [runFiles] at h ⊢
      simp only [he] at h ⊢
      rw [ih (endFile (feedAll (beginFile st f.1) f.2).state) h]
      rw [endFile_total, feedAll_total f.2 (beginFile st f.1) he, beginFile_total]
      simp
      omega

/-- C1: for every run that reaches its end (no line raised), the total error
count the run controller reads from the stream at the end of the run equals
the number of error-classified lines — those beginning neither with the
completion marker `'Done'` nor with a recognized warning prefix — fed across
the whole run. -/
theorem c1_run_total_error_counts (files : List (List Char × List (List Char)))
    (h : (run files).error = none) :
    (run files).state.total_error_counts =
      (files.map (fun f => countErrorLines f.2)).sum := by
  have hr := runFiles_total files (Init blankState) (by simpa [run] using h)
  simpa [run, Init, blankState] using hr

/-- C1 witness: a concrete completed run with two error lines, one warning
line and one clean file reports a total of 2. -/
theorem c1_run_total_error_counts_witness :
    (run [("a.cc".toList,
            ["a.cc:10:bad indent".toList, "a.cc:20:missing space".toList,
             "Done processing a.cc".toList]),
          ("b.cc".toList,
            ["Skipping input b.cc: reason text".toList,
             "Done processing b.cc".toList]),
          ("c.cc".toList, ["Done processing c.cc".toList])]).state.total_error_counts =
      ([("a.cc".toList,
            ["a.cc:10:bad indent".toList, "a.cc:20:missing space".toList,
             "Done processing a.cc".toList]),
          ("b.cc".toList,
            ["Skipping input b.cc: reason text".toList,
             "Done processing b.cc".toList]),
          ("c.cc".toList, ["Done processing c.cc".toList])].map
        (fun f => countErrorLines f.2)).sum :=
  c1_run_total_error_counts _ (by decide)

/-- C5: the classification `write` performs on a raw line follows the spec's
decision procedure: a line beginning with a recognized warning prefix (ordered
table, first match wins) is a Warning whose message is the text after the
first occurrence of that prefix's separator, trimmed, first character
lower-cased; else a line beginning with the completion literal is a
Completion; else the line is an Error obtained by splitting on the first two
colons, the description taken verbatim as the remainder and trimmed. -/
theorem c5_classify_follows_spec (data : List Char) :
    classify data = classifySpec data := by
  by_cases hd : (doneMarker.isPrefixOf data) = true
  · simp only [classify, classifySpec, hd, if_true, findWarningPattern_of_done hd]
  · simp only [Bool.not_eq_true] at hd
    simp only [classify, classifySpec, hd, Bool.false_eq_true, if_false]

/-- C4 counterexample: the warning-prefixed line `"Skipping input"` (no
separator) makes `write` raise `IndexError`, although the line is not
classified on the error path — so feed does raise for a malformed warning
line. -/
theorem c4_counterexample :
    (write (startState "b.cc".toList) "Skipping input".toList).error =
      some PyError.indexError ∧
    isErrorLine "Skipping input".toList = false := by decide

/-- C4 amended: `write` raises if and only if either the line is on the error
path and its split on the first two colons yields fewer than three parts
(`ValueError`), or the line is on the warning path and its separator is
absent or its extracted trimmed message is empty (`IndexError`); completion
lines never raise. -/
theorem c4_amended_raise_characterization (st : FileStreamState)
    (data : List Char) :
    (write st data).error =
      (if errorMalformed data then some PyError.valueError
       else if warningMalformed data then some PyError.indexError
       else none) := by
  by_cases hd : (doneMarker.isPrefixOf data) = true
  · have h1 : errorMalformed data = false := by simp [errorMalformed, isErrorLine, hd]
    have h2 : warningMalformed data = false := by simp [warningMalformed, hd]
    simp only [write, hd, if_true, h1, h2, Bool.false_eq_true, if_false]
    by_cases he : (st.error_counts == 0) = true <;> simp [writeDone, he]
  · simp only [Bool.not_eq_true] at hd
    cases hw : findWarningPattern data with
    | some p =>
      have h1 : errorMalformed data = false := by
        simp [errorMalformed, isErrorLine, hw]
      simp only [write, hd, Bool.false_eq_true, if_false, hw, h1]
      cases hs : splitFirst p.2 data with
      | none => simp [writeWarning, hs, warningMalformed, hd, hw]
      | some pr =>
        obtain ⟨a, rest⟩ := pr
        cases hstr : strip rest with
        | nil => simp [writeWarning, hs, hstr, warningMalformed, hd, hw]
        | cons c cs => simp [writeWarning, hs, hstr, warningMalformed, hd, hw]
    | none =>
      have h2 : warningMalformed data = false := by simp [warningMalformed, hw]
      simp only [write, hd, Bool.false_eq_true, if_false, hw, h2]
      by_cases h1 : (st.error_counts + 1 == 1) = true <;>
      cases h3 : split2 ':' data with
      | none => simp [writeError, h1, h3, errorMalformed, isErrorLine, hd, hw]
      | some t =>
        obtain ⟨a, b, c⟩ := t
        simp [writeError, h1, h3, errorMalformed, isErrorLine, hd, hw]

/-- C3: `FileStream.Init` resets the run state to its zero values
(`previous_file_has_error = false`, `processed_files = 0`,
`total_error_counts = 0`), and after `Init` followed by
`PrepareForProcessingFile` the whole object state at the first fed line of
the first file is exactly the zero state with the file's name. -/
theorem c3_init_resets (st : FileStreamState) (fn : List Char) :
    (Init st).previous_file_has_error = false ∧
    (Init st).processed_files = 0 ∧
    (Init st).total_error_counts = 0 ∧
    PrepareForProcessingFile (Init st) fn = ⟨false, 0, 0, fn, 0⟩ :=
  ⟨rfl, rfl, rfl, rfl⟩


/-- C2 counterexample: in the file sequence {error, error}, the second file's
error header is printed with `processed_files = 1` and
`previous_file_has_error = true` and the error glyph — the claimed rule
predicts no leading blank line there — yet the emitted output of the second
file starts with a blank line, so the second error block is not contiguous
with the first. -/
theorem c2_counterexample :
    (feedAll (PrepareForProcessingFile
        (feedAll (startState "a.cc".toList)
          ["a.cc:1:x".toList, "Done processing a.cc".toList]).state
        "b.cc".toList)
      ["b.cc:2:y".toList]).output =
      [OutputLine.blank, OutputLine.header '✗' "b.cc".toList,
       OutputLine.detail "2".toList "y".toList] ∧
    (feedAll (startState "a.cc".toList)
      ["a.cc:1:x".toList, "Done processing a.cc".toList]).state.processed_files
      = 1 ∧
    (feedAll (startState "a.cc".toList)
      ["a.cc:1:x".toList,
       "Done processing a.cc".toList]).state.previous_file_has_error = true := by
  decide

/-- C2 amended: a header printed by `PrintFilename` is preceded by a blank
line exactly when `processed_files = 0`, or `previous_file_has_error` holds
and the glyph is not the error glyph; however the first-error header emitted
by `write` carries an additional leading blank line whenever
`processed_files > 0`, so an error header is always preceded by a blank line
— error blocks are never contiguous with the previous file's block. -/
theorem c2_amended_blank_line_rule (st₁ : FileStreamState) (g : Char)
    (m : Option (List Char)) (st₂ : FileStreamState) (data : List Char)
    (h₁ : isErrorLine data = true) (h₂ : st₂.error_counts = 0) :
    ((PrintFilename st₁ g m).2.head? = some OutputLine.blank ↔
      (st₁.processed_files = 0 ∨
        (st₁.previous_file_has_error = true ∧ g ≠ '✗'))) ∧
    (write st₂ data).output.head? = some OutputLine.blank := by
  constructor
  · have hb : ((PrintFilename st₁ g m).2.head? = some OutputLine.blank) ↔
        (st₁.processed_files == 0 ||
          (st₁.previous_file_has_error && !(g == '✗'))) = true := by
      by_cases hc : (st₁.processed_files == 0 ||
          (st₁.previous_file_has_error && !(g == '✗'))) = true <;>
        simp [PrintFilename, hc]
    rw [hb]
    simp [Bool.or_eq_true, Bool.and_eq_true, Bool.not_eq_true']
  · have hand : (!(doneMarker.isPrefixOf data) &&
        (findWarningPattern data).isNone) = true := h₁
    rw [Bool.and_eq_true] at hand
    have hd : doneMarker.isPrefixOf data = false := by
      simpa using hand.1
    have hw : findWarningPattern data = none := by
      simpa [Option.isNone_iff_eq_none] using hand.2
    simp only [write, hd, Bool.false_eq_true, if_false, hw]
    by_cases hp : (st₂.processed_files > 0)
    · cases h3 : split2 ':' data with
      | none => simp [writeError, h₂, hp, h3]
      | some t =>
        obtain ⟨a, b, c⟩ := t
        simp [writeError, h₂, hp, h3]
    · have hp0 : st₂.processed_files = 0 := by omega
      cases h3 : split2 ':' data with
      | none => simp [writeError, h₂, hp, hp0, h3, PrintFilename]
      | some t =>
        obtain ⟨a, b, c⟩ := t
        simp [writeError, h₂, hp, hp0, h3, PrintFilename]

/-- C2 amended witness: a first error on a fresh file yields an output whose
first line is blank. -/
theorem c2_amended_blank_line_rule_witness :
    (write (startState "a.cc".toList) "a.cc:10:bad indent".toList).output.head?
      = some OutputLine.blank :=
  (c2_amended_blank_line_rule blankState '✓' none (startState "a.cc".toList)
    "a.cc:10:bad indent".toList (by decide) (by decide)).2

/-- C6 counterexample: feeding the warning line `"Skipping input b.cc: y"`
from a state with `previous_file_has_error = true` resets that flag to
`false`, so a Warning line does change `previous_file_has_error`. -/
theorem c6_counterexample :
    (write ⟨true, 1, 1, "b.cc".toList, 0⟩
        "Skipping input b.cc: y".toList).state.previous_file_has_error
      = false ∧
    findWarningPattern "Skipping input b.cc: y".toList =
      some ("Skipping input".toList, ':') ∧
    (⟨true, 1, 1, "b.cc".toList, 0⟩ :
        FileStreamState).previous_file_has_error = true := by
  decide

/-- C6 amended: a fed Warning line (a line beginning with a recognized
warning prefix) leaves the active file's `error_counts` and the run's
`total_error_counts` unchanged; it does not leave `previous_file_has_error`
unchanged in general — when the warning header is printed the flag is set to
`false` — and when the warning line is malformed (`write` raises) the whole
state is unchanged. -/
theorem c6_amended_warning_frame (st : FileStreamState) (data : List Char)
    (p : List Char × Char) (h : findWarningPattern data = some p) :
    (write st data).state.error_counts = st.error_counts ∧
    (write st data).state.total_error_counts = st.total_error_counts ∧
    ((write st data).error = none →
      (write st data).state.previous_file_has_error = false) ∧
    ((write st data).error ≠ none → (write st data).state = st) := by
  have hd := done_of_findWarningPattern h
  simp only [write, hd, Bool.false_eq_true, if_false, h]
  cases hs : splitFirst p.2 data with
  | none => simp [writeWarning, hs]
  | some pr =>
    obtain ⟨a, rest⟩ := pr
    cases hstr : strip rest with
    | nil => simp [writeWarning, hs, hstr]
    | cons c cs =>
      simp [writeWarning, hs, hstr, PrintFilename_error_counts,
        PrintFilename_total, PrintFilename,
        show ('⚠' == '✗') = false from rfl]

/-- C6 amended witness: the warning line leaves the file's error count
where it was. -/
theorem c6_amended_warning_frame_witness :
    (write ⟨true, 1, 1, "b.cc".toList, 0⟩
        "Skipping input b.cc: y".toList).state.error_counts =
      (⟨true, 1, 1, "b.cc".toList, 0⟩ : FileStreamState).error_counts :=
  (c6_amended_warning_frame ⟨true, 1, 1, "b.cc".toList, 0⟩
    "Skipping input b.cc: y".toList ("Skipping input".toList, ':')
    (by decide)).1

/-- C7 counterexample: a single file that feeds two warning lines and its
completion line prints three headers and increments `processed_files` three
times before any per-file end hook runs, so `processed_files` does not
increment exactly once per file for which a header was printed. -/
theorem c7_counterexample :
    (feedAll (startState "b.cc".toList)
      ["Skipping input b.cc: x".toList, "Ignoring b.cc; y".toList,
       "Done processing b.cc".toList]).state.processed_files = 3 ∧
    (feedAll (startState "b.cc".toList)
      ["Skipping input b.cc: x".toList, "Ignoring b.cc; y".toList,
       "Done processing b.cc".toList]).error = none ∧
    countHeaders (feedAll (startState "b.cc".toList)
      ["Skipping input b.cc: x".toList, "Ignoring b.cc; y".toList,
       "Done processing b.cc".toList]).output = 3 := by
  decide

/-- C7 amended: `processed_files` is incremented by the header-printing
routine `PrintFilename`, exactly once per header printed — not by a per-file
end hook — so each `write` call advances it by the number of headers that
call printed, and a file may advance it more than once. -/
theorem c7_amended_processed_files (st : FileStreamState) (data : List Char)
    (g : Char) (m : Option (List Char)) :
    (PrintFilename st g m).1.processed_files = st.processed_files + 1 ∧
    (write st data).state.processed_files =
      st.processed_files + countHeaders (write st data).output :=
  ⟨PrintFilename_processed st g m, (write_counters st data).2⟩

/-- C8: feeding the three lines `a.cc:10:bad indent`, `a.cc:20:missing space`
and `Done processing a.cc` for file `a.cc` produces exactly one error header,
then the two detail lines `#10: bad indent` and `#20: missing space` in that
order, and leaves the file's `error_counts` at 2 (here with the run's
leading blank line, since no file preceded). -/
theorem c8_two_error_scenario :
    feedAll (startState "a.cc".toList)
      ["a.cc:10:bad indent".toList, "a.cc:20:missing space".toList,
       "Done processing a.cc".toList] =
      ⟨⟨true, 1, 2, "a.cc".toList, 2⟩,
       [OutputLine.blank, OutputLine.header '✗' "a.cc".toList,
        OutputLine.detail "10".toList "bad indent".toList,
        OutputLine.detail "20".toList "missing space".toList],
       none⟩ := by
  decide

/-- The filtering loop of `parse_arguments` only ever removes elements: the
kept arguments form a sublist of the originals, in their original order. -/
theorem filterFilenames_sublist (excl : List (List Char))
    (args : List PathArg) :
    List.Sublist (filterFilenames excl args) args := by
  induction args with
  | nil => simp [filterFilenames]
  | cons a rest ih =>
    by_cases hc : ((a.isDir && excl.contains a.relpath) ||
        (a.isFile && excl.contains (dirname a.path))) = true
    · rw [filterFilenames, if_pos hc]
      exact List.Sublist.cons a ih
    · rw [filterFilenames, if_neg hc]
      exact List.Sublist.cons₂ a ih

/-- Membership in the filtered argument list: an argument survives exactly
when it was present and its exclusion test is false. -/
theorem mem_filterFilenames (excl : List (List Char)) (args : List PathArg)
    (a : PathArg) :
    a ∈ filterFilenames excl args ↔
      a ∈ args ∧ ((a.isDir && excl.contains a.relpath) ||
        (a.isFile && excl.contains (dirname a.path))) = false := by
  induction args with
  | nil => simp [filterFilenames]
  | cons b rest ih =>
    by_cases hc : ((b.isDir && excl.contains b.relpath) ||
        (b.isFile && excl.contains (dirname b.path))) = true
    · rw [filterFilenames, if_pos hc, ih]
      constructor
      · rintro ⟨hmem, hf⟩
        exact ⟨List.mem_cons_of_mem _ hmem, hf⟩
      · rintro ⟨hmem, hf⟩
        rcases List.mem_cons.mp hmem with rfl | hmem2
        · rw [hc] at hf
          exact Bool.noConfusion hf
        · exact ⟨hmem2, hf⟩
    · rw [filterFilenames, if_neg hc]
      rw [List.mem_cons, ih]
      simp only [Bool.not_eq_true] at hc
      constructor
      · rintro (rfl | ⟨hmem, hf⟩)
        · exact ⟨List.mem_cons_self _ _, hc⟩
        · exact ⟨List.mem_cons_of_mem _ hmem, hf⟩
      · rintro ⟨hmem, hf⟩
        rcases List.mem_cons.mp hmem with rfl | hmem2
        · exact Or.inl rfl
        · exact Or.inr ⟨hmem2, hf⟩

/-- C9 counterexample: with `excl` an excluded directory, the file argument
`excl/sub/f.cc` lies inside the excluded directory (at depth two) yet is kept
by the filter, because only its immediate parent `excl/sub` is compared with
the excluded set. -/
theorem c9_counterexample :
    filterFilenames ["excl".toList]
      [⟨"excl/sub/f.cc".toList, false, true, "excl/sub/f.cc".toList⟩] =
      [⟨"excl/sub/f.cc".toList, false, true, "excl/sub/f.cc".toList⟩] ∧
    ("excl/".toList).isPrefixOf "excl/sub/f.cc".toList = true ∧
    dirname "excl/sub/f.cc".toList = "excl/sub".toList := by
  decide

/-- C9 amended: the final file list keeps an argument unless it is a
directory whose normalized relative path is an excluded directory, or a file
whose immediate parent directory (`os.path.dirname`, not any deeper ancestor)
is an excluded directory; the kept arguments preserve their order. -/
theorem c9_amended_filter_rule (excl : List (List Char)) (args : List PathArg)
    (a : PathArg) :
    (a ∈ filterFilenames excl args ↔
      a ∈ args ∧ ¬(a.isDir = true ∧ a.relpath ∈ excl) ∧
        ¬(a.isFile = true ∧ dirname a.path ∈ excl)) ∧
    List.Sublist (filterFilenames excl args) args := by
  refine ⟨?_, filterFilenames_sublist excl args⟩
  rw [mem_filterFilenames]
  have hcond : (((a.isDir && excl.contains a.relpath) ||
      (a.isFile && excl.contains (dirname a.path))) = false) ↔
      (¬(a.isDir = true ∧ a.relpath ∈ excl) ∧
        ¬(a.isFile = true ∧ dirname a.path ∈ excl)) := by
    cases hdir : a.isDir <;> cases hfile : a.isFile <;>
      simp [hdir, hfile, List.contains, List.elem_iff]
  exact and_congr_right fun _ => hcond

/-- C10: a raising error-branch line (fewer than three colon-parts) raises
only after the file's `error_counts` and the run's `total_error_counts` have
been incremented, and — when it was the file's first error — after the error
header has been printed; the raising call does not leave the state
unchanged. -/
theorem c10_raising_error_line_mutates (st : FileStreamState)
    (data : List Char) (h₁ : isErrorLine data = true)
    (h₂ : split2 ':' data = none) :
    (write st data).error = some PyError.valueError ∧
    (write st data).state.error_counts = st.error_counts + 1 ∧
    (write st data).state.total_error_counts = st.total_error_counts + 1 ∧
    (st.error_counts = 0 →
      OutputLine.header '✗' st.filename ∈ (write st data).output) ∧
    (write st data).state ≠ st := by
  have hand : (!(doneMarker.isPrefixOf data) &&
      (findWarningPattern data).isNone) = true := h₁
  rw [Bool.and_eq_true] at hand
  have hd : doneMarker.isPrefixOf data = false := by
    simpa using hand.1
  have hw : findWarningPattern data = none := by
    simpa [Option.isNone_iff_eq_none] using hand.2
  have hcnt := writeError_counters st data
  have hne : (writeError st data).state ≠ st := by
    intro heq
    have := hcnt.2.1
    rw [heq] at this
    omega
  simp only [write, hd, Bool.false_eq_true, if_false, hw]
  refine ⟨?_, hcnt.2.1, hcnt.1, ?_, hne⟩
  · cases h3 : split2 ':' data with
    | none => simp [writeError, h3]
    | some t => rw [h3] at h₂; exact absurd h₂ (by simp)
  · intro hzero
    by_cases hp : (st.processed_files > 0) <;>
      simp [writeError, h₂, hzero, hp, PrintFilename]

/-- C10 witness: the malformed error-path line `"not-a-valid-line"` raises
`ValueError` on a fresh file state. -/
theorem c10_raising_error_line_mutates_witness :
    (write (startState "a.cc".toList) "not-a-valid-line".toList).error =
      some PyError.valueError :=
  (c10_raising_error_line_mutates (startState "a.cc".toList)
    "not-a-valid-line".toList (by decide) (by decide)).1

end Cclint
